import Mathlib

/-!
Verification of the WebSocket message-router subsystem
(`lambdas/websocket/message-router/lambda_function.py`).

The embedding models the router's state as the two DynamoDB tables it
touches: the connections table (the Connection Registry) and the messages
table (the Message Store).  DynamoDB items are open attribute maps; the
attribute values that occur here are strings, numbers (read back by boto3
as `Decimal`), booleans and nested maps, modelled by `AttrVal`.  A numeric
value is carried as an `Int` payload; the `decimal` / `float` constructors
record only the *type tag* that matters for JSON serialization, which is
what the normalization code in `get_recent_messages` inspects.

Effects are made explicit: `post_to_connection` outcomes are given by an
environment function `net : String → SendOutcome` fixed for the invocation
(`gone` models `GoneException`, `error` any other exception), and every
attempted send is recorded in an output trace.  `uuid.uuid4()` and
`datetime.utcnow()` are supplied by the invocation context `Ctx`.  A
handler that lets a Python exception escape returns `none` in its response
slot; `lambda_handler`'s catch-all turns that into the generic 500
response, keeping whatever state mutations already happened.
-/

set_option maxHeartbeats 1000000

namespace Situ8

/-- A DynamoDB attribute value as seen through boto3: strings, numbers
(read back as `Decimal`), normalized floats, booleans, nested maps.
A nested map is represented as a `mapNil`/`mapCons` chain of string-keyed
entries (Lean 4.14 cannot derive decidable equality through a nested
`List`, so the chain is built into the inductive). -/
inductive AttrVal where
  | str : String → AttrVal
  | decimal : Int → AttrVal
  | float : Int → AttrVal
  | boolVal : Bool → AttrVal
  | mapNil : AttrVal
  | mapCons : String → AttrVal → AttrVal → AttrVal
deriving Repr, DecidableEq

/-- A DynamoDB item: an open string-keyed attribute map. -/
abbrev Item := List (String × AttrVal)

/-- Outcome of one `post_to_connection` call. -/
inductive SendOutcome where
  | delivered
  | gone
  | error
deriving Repr, DecidableEq

/-- One record of the connections table.  `connectionId` is the key;
the remaining attributes are optional because an item created by the
upsert path of `update_item` holds only the attributes that were SET. -/
structure Conn where
  connectionId : String
  userId : Option String := none
  userEmail : Option String := none
  userRole : Option String := none
  channelId : Option String := none
  lastActivity : Option String := none
deriving Repr, DecidableEq

/-- The message dict built by `handle_message`. -/
structure Message where
  messageId : String
  channelId : String
  senderId : String
  senderEmail : String
  senderRole : String
  content : String
  msgType : String
  timestamp : String
  metadata : AttrVal
deriving Repr, DecidableEq

/-- The item stored in the messages table for a `Message`. -/
def Message.toItem (m : Message) : Item :=
  [("messageId", .str m.messageId),
   ("channelId", .str m.channelId),
   ("senderId", .str m.senderId),
   ("senderEmail", .str m.senderEmail),
   ("senderRole", .str m.senderRole),
   ("content", .str m.content),
   ("type", .str m.msgType),
   ("timestamp", .str m.timestamp),
   ("metadata", m.metadata)]

/-- One record of the messages table.  `channelId` is the partition key;
`key` is the timestamp-derived sort key (monotonically increasing by
insertion within a channel, per the data model). -/
structure StoredMsg where
  channelId : String
  key : Nat
  item : Item
deriving Repr, DecidableEq

/-- The durable state: the connections table and the messages table.
The messages list is in insertion order. -/
structure St where
  connections : List Conn
  messages : List StoredMsg
deriving Repr, DecidableEq

/-- A decoded client frame (the JSON body).  Absent keys are `none`.
Pagination cursors are modelled by the store's sort key. -/
structure Frame where
  action : Option String := none
  channelId : Option String := none
  content : Option String := none
  msgType : Option String := none
  metadata : Option AttrVal := none
  isTyping : Option Bool := none
  limit : Option Nat := none
  cursor : Option Nat := none
  lastEvaluatedKey : Option Nat := none
deriving Repr, DecidableEq

/-- Server → client payloads. -/
inductive Payload where
  | message : Message → Payload
  | userJoined : Option String → Option String → String → Payload
  | userLeft : Option String → Option String → String → Payload
  | typing : Option String → Option String → Bool → Payload
  | pong : String → Payload
  | messageHistory : List Item → Bool → Option Nat → String → Payload
  | messageHistoryBatch : List Item → Bool → Option Nat → String → Payload
deriving Repr, DecidableEq

/-- One attempted `post_to_connection`, with the outcome the transport
reported for it. -/
structure Sent where
  connId : String
  payload : Payload
  outcome : SendOutcome
deriving Repr, DecidableEq

/-- The body of a transport response. -/
inductive RespBody where
  | msg : String → RespBody
  | err : String → RespBody
  | msgSent : String → String → RespBody
deriving Repr, DecidableEq

/-- A transport response. -/
structure Resp where
  statusCode : Nat
  body : RespBody
deriving Repr, DecidableEq

/-- Invocation context: generated uuid, current time (ISO string), the
sort key the store assigns to an appended message, and the transport's
per-connection send outcome for this invocation. -/
structure Ctx where
  uuid : String
  now : String
  tick : Nat
  net : String → SendOutcome

/-! ## Connection Registry operations (DynamoDB connections table) -/

/-- Source `get_connection_info`: `connections_table.get_item(Key={'connectionId': ...})`;
returns the item or `None`. -/
def get_connection_info (st : St) (connection_id : String) : Option Conn :=
  st.connections.find? (fun c => c.connectionId == connection_id)

/-- Source `get_channel_connections`: scan of the connections table with filter
`channelId = :channel`.  An item with no `channelId` attribute does not match. -/
def get_channel_connections (st : St) (channel_id : String) : List Conn :=
  st.connections.filter (fun c => c.channelId == some channel_id)

/-- Source `connections_table.delete_item(Key={'connectionId': ...})`: idempotent
delete by key. -/
def deleteConn (conns : List Conn) (connection_id : String) : List Conn :=
  conns.filter (fun c => c.connectionId != connection_id)

/-- Source `connections_table.update_item(... SET channelId = :channel, lastActivity
= :time)`: DynamoDB `UpdateItem` is an upsert — when no item has the key, a
new item is created holding only the key and the SET attributes. -/
def updateChannelActivity (conns : List Conn) (connection_id channel time : String) :
    List Conn :=
  if conns.any (fun c => c.connectionId == connection_id) then
    conns.map (fun c =>
      if c.connectionId == connection_id then
        { c with channelId := some channel, lastActivity := some time }
      else c)
  else
    conns ++ [{ connectionId := connection_id, channelId := some channel,
                lastActivity := some time }]

/-- Source `connections_table.update_item(... SET lastActivity = :time)` from
`handle_ping`: same upsert semantics, touching only `lastActivity`. -/
def updateActivity (conns : List Conn) (connection_id time : String) : List Conn :=
  if conns.any (fun c => c.connectionId == connection_id) then
    conns.map (fun c =>
      if c.connectionId == connection_id then { c with lastActivity := some time }
      else c)
  else
    conns ++ [{ connectionId := connection_id, lastActivity := some time }]

/-! ## Message Store operations (DynamoDB messages table) -/

/-- The per-key conversion performed by the cleaning loop in
`get_recent_messages`: `if isinstance(value, Decimal): float(value)`.
Only a value that *is* a `Decimal` at the top of the attribute is
converted; any other value (including a map that contains decimals)
passes through unchanged. -/
def cleanValue : AttrVal → AttrVal
  | .decimal n => .float n
  | v => v

/-- The cleaning loop of `get_recent_messages`: shallow map over the
item's top-level attributes. -/
def cleanItem (item : Item) : Item :=
  item.map (fun kv => (kv.1, cleanValue kv.2))

/-- The channel's slice of the messages table, newest-first, as the
DynamoDB query with `ScanIndexForward=False` returns it.  The table list
is insertion-ordered and per-channel sort keys increase by insertion, so
the newest-first order is the reverse of the filtered list. -/
def channelDesc (st : St) (channel_id : String) : List StoredMsg :=
  (st.messages.filter (fun m => m.channelId == channel_id)).reverse

/-- The effect of `ExclusiveStartKey` on a newest-first query: only items
strictly beyond the cursor key are returned. -/
def afterCursor (desc : List StoredMsg) (cursor : Option Nat) : List StoredMsg :=
  match cursor with
  | none => desc
  | some k => desc.filter (fun m => m.key < k)

/-- Result of `get_recent_messages`. -/
structure QueryResult where
  messages : List Item
  hasMore : Bool
  lastEvaluatedKey : Option Nat
deriving Repr, DecidableEq

/-- The DynamoDB query of `get_recent_messages` on the newest-first list:
take at most `limit` items after the cursor.  DynamoDB stops as soon as
`Limit` items have been read and then reports `LastEvaluatedKey` (the key
of the last returned item) — also when the stop happens to coincide with
the end of the range — so the key is present exactly when `limit` items
were returned. -/
def queryDesc (desc : List StoredMsg) (limit : Nat) (cursor : Option Nat) :
    List StoredMsg × Option Nat :=
  let after := afterCursor desc cursor
  let items := after.take limit
  let lek := if 0 < limit ∧ items.length = limit then
               (items.getLast?).map (fun m => m.key)
             else none
  (items, lek)

/-- Source `get_recent_messages(channel_id, limit, last_evaluated_key)`: query the
channel newest-first from the cursor, convert top-level `Decimal`
attributes to floats, reverse into chronological order; `hasMore` is
`'LastEvaluatedKey' in response`. -/
def get_recent_messages (st : St) (channel_id : String) (limit : Nat)
    (last_evaluated_key : Option Nat) : QueryResult :=
  let (items, lek) := queryDesc (channelDesc st channel_id) limit last_evaluated_key
  { messages := (items.map (fun m => cleanItem m.item)).reverse
    hasMore := lek.isSome
    lastEvaluatedKey := lek }

/-! ## Broadcast Dispatcher -/

/-- Source `broadcast_to_channel(channel_id, message, exclude_connection)`, as the
source writes it: resolve membership once, then fan out; a send that
raises `GoneException` deletes that connection from the registry at once,
inside the loop; other failures are only logged. -/
def broadcast_to_channel (ctx : Ctx) (st : St) (channel_id : String)
    (payload : Payload) (exclude_connection : Option String) : St × List Sent :=
  let conns := get_channel_connections st channel_id
  conns.foldl
    (fun acc c =>
      if some c.connectionId == exclude_connection then acc
      else
        let s : Sent := ⟨c.connectionId, payload, ctx.net c.connectionId⟩
        let st' :=
          if ctx.net c.connectionId == .gone then
            { acc.1 with connections := deleteConn acc.1.connections c.connectionId }
          else acc.1
        (st', acc.2 ++ [s]))
    (st, [])

/-- Modelled from the spec (§4.3 Broadcast Dispatcher), for comparison with
`broadcast_to_channel`: resolve membership via the registry's
list-by-channel; attempt a send to each member except the excluded one;
collect every connection that reported gone; only after the fan-out over
all members completes, delete each gone connection from the registry. -/
def broadcastSpec (ctx : Ctx) (st : St) (channel_id : String)
    (payload : Payload) (exclude_connection : Option String) : St × List Sent :=
  let targets := (get_channel_connections st channel_id).filter
    (fun c => !(some c.connectionId == exclude_connection))
  let sends := targets.map
    (fun c => (⟨c.connectionId, payload, ctx.net c.connectionId⟩ : Sent))
  let goneIds := (targets.filter (fun c => ctx.net c.connectionId == .gone)).map
    (fun c => c.connectionId)
  ({ st with connections := goneIds.foldl deleteConn st.connections }, sends)

/-! ## Message Router handlers

Each handler returns `(Option Resp, St, List Sent)`: the response (`none`
when a Python exception escapes the handler and propagates to
`lambda_handler`'s catch-all), the state after whatever mutations
happened, and the trace of attempted sends. -/

/-- The message record built by `handle_message` (lines 74-94): id and
timestamp from the invocation, sender fields copied from the resolved
connection with the source's defaults, channel from the frame or the
sender's current channel or `"main"`. -/
def builtMessage (ctx : Ctx) (sender_info : Conn) (body : Frame) : Message :=
  { messageId := ctx.uuid
    channelId := body.channelId.getD (sender_info.channelId.getD "main")
    senderId := sender_info.userId.getD "unknown"
    senderEmail := sender_info.userEmail.getD "unknown"
    senderRole := sender_info.userRole.getD "user"
    content := body.content.getD ""
    msgType := body.msgType.getD "text"
    timestamp := ctx.now
    metadata := body.metadata.getD .mapNil }

/-- Source `handle_message(connection_id, body)`. -/
def handle_message (ctx : Ctx) (st : St) (connection_id : String) (body : Frame) :
    Option Resp × St × List Sent :=
  match get_connection_info st connection_id with
  | none => (some ⟨401, .err "Connection not found"⟩, st, [])
  | some sender_info =>
    let message := builtMessage ctx sender_info body
    let st1 : St := { st with
      messages := st.messages ++ [⟨message.channelId, ctx.tick, message.toItem⟩] }
    let conns := get_channel_connections st1 message.channelId
    let sends := conns.map
      (fun c => (⟨c.connectionId, .message message, ctx.net c.connectionId⟩ : Sent))
    let failed := (conns.filter (fun c => ctx.net c.connectionId == .gone)).map
      (fun c => c.connectionId)
    let st2 : St := { st1 with connections := failed.foldl deleteConn st1.connections }
    (some ⟨200, .msgSent "Message sent" ctx.uuid⟩, st2, sends)

/-- Source `handle_join_channel(connection_id, body)`.  The registry update runs
first (an upsert), then the sender is resolved; `sender_info.get` on a
`None` result would raise, modelled by the `none` response (unreachable
after the upsert, but kept for fidelity). -/
def handle_join_channel (ctx : Ctx) (st : St) (connection_id : String) (body : Frame) :
    Option Resp × St × List Sent :=
  let channel_id := body.channelId.getD "main"
  let st1 : St := { st with
    connections := updateChannelActivity st.connections connection_id channel_id ctx.now }
  match get_connection_info st1 connection_id with
  | none => (none, st1, [])
  | some sender_info =>
    let (st2, sends1) := broadcast_to_channel ctx st1 channel_id
      (.userJoined sender_info.userId sender_info.userEmail channel_id)
      (some connection_id)
    let message_history := get_recent_messages st2 channel_id 50 none
    let histSend : Sent := ⟨connection_id,
      .messageHistory message_history.messages message_history.hasMore
        message_history.lastEvaluatedKey channel_id,
      ctx.net connection_id⟩
    (some ⟨200, .msg ("Joined channel " ++ channel_id)⟩, st2, sends1 ++ [histSend])

/-- Source `handle_leave_channel(connection_id, body)`.  A sender absent from the
registry makes `sender_info.get` raise before any broadcast. -/
def handle_leave_channel (ctx : Ctx) (st : St) (connection_id : String) (body : Frame) :
    Option Resp × St × List Sent :=
  let channel_id := body.channelId.getD "main"
  match get_connection_info st connection_id with
  | none => (none, st, [])
  | some sender_info =>
    let (st1, sends) := broadcast_to_channel ctx st channel_id
      (.userLeft sender_info.userId sender_info.userEmail channel_id)
      (some connection_id)
    (some ⟨200, .msg ("Left channel " ++ channel_id)⟩, st1, sends)

/-- Source `handle_typing_indicator(connection_id, body)`. -/
def handle_typing_indicator (ctx : Ctx) (st : St) (connection_id : String)
    (body : Frame) : Option Resp × St × List Sent :=
  let channel_id := body.channelId.getD "main"
  let is_typing := body.isTyping.getD false
  match get_connection_info st connection_id with
  | none => (none, st, [])
  | some sender_info =>
    let (st1, sends) := broadcast_to_channel ctx st channel_id
      (.typing sender_info.userId sender_info.userEmail is_typing)
      (some connection_id)
    (some ⟨200, .msg "Typing indicator sent"⟩, st1, sends)

/-- Source `handle_ping(connection_id)`: the activity update is wrapped in a bare
try/except; the pong `post_to_connection` is *not*, so a gone or failing
connection raises out of the handler. -/
def handle_ping (ctx : Ctx) (st : St) (connection_id : String) :
    Option Resp × St × List Sent :=
  let st1 : St := { st with
    connections := updateActivity st.connections connection_id ctx.now }
  let s : Sent := ⟨connection_id, .pong ctx.now, ctx.net connection_id⟩
  if ctx.net connection_id == .delivered then
    (some ⟨200, .msg "Pong"⟩, st1, [s])
  else
    (none, st1, [s])

/-- Source `handle_load_more_messages(connection_id, body)`.  The cursor is taken
from `body.get('cursor') or body.get('lastEvaluatedKey')`; a failure of the
reply send is caught locally and turned into a 500. -/
def handle_load_more_messages (ctx : Ctx) (st : St) (connection_id : String)
    (body : Frame) : Option Resp × St × List Sent :=
  let channel_id := body.channelId.getD "main"
  let limit := body.limit.getD 50
  let last_evaluated_key := body.cursor <|> body.lastEvaluatedKey
  match get_connection_info st connection_id with
  | none => (some ⟨401, .err "Connection not found"⟩, st, [])
  | some _ =>
    let message_history := get_recent_messages st channel_id limit last_evaluated_key
    let s : Sent := ⟨connection_id,
      .messageHistoryBatch message_history.messages message_history.hasMore
        message_history.lastEvaluatedKey channel_id,
      ctx.net connection_id⟩
    if ctx.net connection_id == .delivered then
      (some ⟨200, .msg ("Loaded " ++ toString message_history.messages.length
        ++ " messages")⟩, st, [s])
    else
      (some ⟨500, .err "Failed to load messages"⟩, st, [s])

/-- Source `lambda_handler(event, context)`: decode the body (a `none` raw body
models a `json.loads` failure), dispatch on `body.get('action', 'message')`,
and convert any escaped exception into the generic 500 response while
keeping the mutations that already happened. -/
def lambda_handler (ctx : Ctx) (st : St) (connection_id : String)
    (rawBody : Option Frame) : Resp × St × List Sent :=
  match rawBody with
  | none => (⟨500, .err "Failed to process message"⟩, st, [])
  | some body =>
    let action := body.action.getD "message"
    let r : Option Resp × St × List Sent :=
      if action = "message" then handle_message ctx st connection_id body
      else if action = "join" then handle_join_channel ctx st connection_id body
      else if action = "leave" then handle_leave_channel ctx st connection_id body
      else if action = "typing" then handle_typing_indicator ctx st connection_id body
      else if action = "ping" then handle_ping ctx st connection_id
      else if action = "load_more_messages" then
        handle_load_more_messages ctx st connection_id body
      else (some ⟨400, .err ("Unknown action: " ++ action)⟩, st, [])
    match r with
    | (some resp, st', sends) => (resp, st', sends)
    | (none, st', sends) => (⟨500, .err "Failed to process message"⟩, st', sends)

/-! ## Derived notions used by the statements -/

/-- Some value inside the attribute (at any depth) is still a `Decimal`. -/
def AttrVal.hasDecimal : AttrVal → Bool
  | .decimal _ => true
  | .mapCons _ v rest => v.hasDecimal || rest.hasDecimal
  | _ => false

/-- The attribute is a `Decimal` at top level (what the cleaning loop's
`isinstance(value, Decimal)` tests). -/
def AttrVal.isDecimal : AttrVal → Bool
  | .decimal _ => true
  | _ => false

/-- Sort keys strictly decreasing along the list (the well-formedness of a
newest-first channel slice; it holds because per-channel sort keys increase
by insertion). -/
def keysDesc : List StoredMsg → Bool
  | [] => true
  | [_] => true
  | a :: b :: t => (decide (b.key < a.key)) && keysDesc (b :: t)

/-- The client pagination loop: call `get_recent_messages`, and while
`hasMore` holds call again passing back the returned `lastEvaluatedKey`
verbatim.  `fuel` bounds the number of calls; `paginateAll` supplies
enough fuel for the loop to reach `hasMore = false`. -/
def runPages (st : St) (channel_id : String) (limit : Nat) :
    Nat → Option Nat → List (List Item)
  | 0, _ => []
  | fuel + 1, cursor =>
    let r := get_recent_messages st channel_id limit cursor
    if r.hasMore then
      r.messages :: runPages st channel_id limit fuel r.lastEvaluatedKey
    else [r.messages]

/-- All pages produced by paginating a channel from the start to
`hasMore = false`. -/
def paginateAll (st : St) (channel_id : String) (limit : Nat) : List (List Item) :=
  runPages st channel_id limit (st.messages.length + 1) none

/-! ## Concrete fixtures used by witnesses and counterexamples -/

/-- An invocation context in which every send is delivered. -/
def ctx0 : Ctx := ⟨"uuid-1", "T1", 10, fun _ => .delivered⟩

/-- A fully populated sender connection on channel `"main"`. -/
def connS : Conn :=
  { connectionId := "s", userId := some "u1", userEmail := some "e1",
    userRole := some "admin", channelId := some "main" }

/-- A connection on channel `"ops"`. -/
def connO : Conn := { connectionId := "o", channelId := some "ops" }

/-- A second connection on channel `"main"`. -/
def connM : Conn := { connectionId := "m2", channelId := some "main" }

/-- Registry with the three connections above and an empty message store. -/
def st0 : St := ⟨[connS, connO, connM], []⟩

/-- A store holding one message on channel `"c"`. -/
def stOne : St := ⟨[], [⟨"c", 0, [("content", .str "a")]⟩]⟩

/-- A store holding three messages on channel `"c"` (sort keys ascending by
insertion). -/
def stThree : St :=
  ⟨[], [⟨"c", 0, [("content", .str "a")]⟩,
        ⟨"c", 1, [("content", .str "b")]⟩,
        ⟨"c", 2, [("content", .str "d")]⟩]⟩

/-- A store whose single message carries a top-level decimal attribute and
a decimal nested inside its `metadata` map. -/
def stDec : St :=
  ⟨[], [⟨"c", 0, [("score", .decimal 5),
                  ("metadata", .mapCons "lat" (.decimal 7) .mapNil)]⟩]⟩

/-! ## Registry lemmas -/

lemma find?_filter_of_imp (l : List Conn) (p q : Conn → Bool)
    (h : ∀ a, p a = true → q a = true) :
    (l.filter q).find? p = l.find? p := by
  induction l with
  | nil => rfl
  | cons a t ih =>
    cases hp : p a with
    | true =>
      have hq := h a hp
      rw [List.filter_cons_of_pos hq, List.find?_cons_of_pos _ hp,
        List.find?_cons_of_pos _ hp]
    | false =>
      cases hq : q a with
      | true =>
        rw [List.filter_cons_of_pos hq, List.find?_cons_of_neg _ (by simp [hp]),
          List.find?_cons_of_neg _ (by simp [hp]), ih]
      | false =>
        rw [List.filter_cons_of_neg (by simp [hq]),
          List.find?_cons_of_neg _ (by simp [hp]), ih]

lemma find?_deleteConn (l : List Conn) (x cid : String) (hx : x ≠ cid) :
    (deleteConn l x).find? (fun c => c.connectionId == cid)
      = l.find? (fun c => c.connectionId == cid) := by
  apply find?_filter_of_imp
  intro a ha
  have : a.connectionId = cid := by simpa using ha
  simp [this, bne_iff_ne, Ne.symm hx]

lemma find?_foldl_deleteConn (ids : List String) (l : List Conn) (cid : String)
    (h : ∀ i ∈ ids, i ≠ cid) :
    (ids.foldl deleteConn l).find? (fun c => c.connectionId == cid)
      = l.find? (fun c => c.connectionId == cid) := by
  induction ids generalizing l with
  | nil => rfl
  | cons i t ih =>
    rw [List.foldl_cons, ih _ (fun j hj => h j (List.mem_cons_of_mem _ hj)),
      find?_deleteConn _ _ _ (h i (List.mem_cons_self i t))]

lemma foldl_deleteConn_eq_filter (ids : List String) (l : List Conn) :
    ids.foldl deleteConn l
      = l.filter (fun c => !(ids.any (fun i => c.connectionId == i))) := by
  induction ids generalizing l with
  | nil => simp
  | cons i t ih =>
    rw [List.foldl_cons]
    show t.foldl deleteConn (deleteConn l i) = _
    rw [ih, deleteConn, List.filter_filter]
    apply List.filter_congr
    intro c _
    simp [bne, Bool.and_comm]

lemma updateChannelActivity_absent (conns : List Conn) (cid C t : String)
    (h : conns.find? (fun c => c.connectionId == cid) = none) :
    updateChannelActivity conns cid C t
      = conns ++ [{ connectionId := cid, channelId := some C, lastActivity := some t }] := by
  unfold updateChannelActivity
  have hany : conns.any (fun c => c.connectionId == cid) = false := by
    rw [List.any_eq_false]
    intro c hc
    have := List.find?_eq_none.mp h c hc
    simpa using this
  rw [if_neg (by simp [hany])]

lemma find?_updateChannelActivity (conns : List Conn) (cid C t : String) :
    ∃ r : Conn,
      (updateChannelActivity conns cid C t).find? (fun c => c.connectionId == cid) = some r
        ∧ r.connectionId = cid ∧ r.channelId = some C ∧ r.lastActivity = some t := by
  unfold updateChannelActivity
  cases hany : conns.any (fun c => c.connectionId == cid) with
  | false =>
    rw [if_neg (by simp [hany]), List.find?_append]
    have hnone : conns.find? (fun c => c.connectionId == cid) = none := by
      rw [List.find?_eq_none]
      intro c hc
      have := List.any_eq_false.mp hany c hc
      simpa using this
    rw [hnone]
    refine ⟨{ connectionId := cid, channelId := some C, lastActivity := some t }, ?_,
      rfl, rfl, rfl⟩
    simp [List.find?]
  | true =>
    rw [if_pos (by simp [hany])]
    obtain ⟨c0, hc0⟩ : ∃ c0, conns.find? (fun c => c.connectionId == cid) = some c0 := by
      have : (conns.find? (fun c => c.connectionId == cid)).isSome := by
        rw [List.find?_isSome]
        simpa using List.any_eq_true.mp hany
      exact Option.isSome_iff_exists.mp this
    have hpc0 := List.find?_some hc0
    have hc0id : c0.connectionId = cid := by simpa using hpc0
    rw [List.find?_map]
    have hcomp :
        ((fun c : Conn => c.connectionId == cid) ∘
          (fun c : Conn =>
            if c.connectionId == cid then
              { c with channelId := some C, lastActivity := some t }
            else c))
          = (fun c : Conn => c.connectionId == cid) := by
      funext c
      by_cases hc : (c.connectionId == cid) = true
      · simp [Function.comp, hc]
      · simp [Function.comp, hc]
    rw [hcomp, hc0]
    exact ⟨_, rfl, by simp [hc0id], by simp [hc0id], by simp [hc0id]⟩

/-! ## Dispatcher lemmas: the interleaved-delete fold of the source equals
the collect-then-delete algorithm of the spec. -/

lemma broadcast_foldl (ctx : Ctx) (payload : Payload) (ex : Option String)
    (l : List Conn) :
    ∀ (st0 : St) (acc : List Sent),
      l.foldl
        (fun acc c =>
          if some c.connectionId == ex then acc
          else
            let s : Sent := ⟨c.connectionId, payload, ctx.net c.connectionId⟩
            let st' :=
              if ctx.net c.connectionId == .gone then
                { acc.1 with connections := deleteConn acc.1.connections c.connectionId }
              else acc.1
            (st', acc.2 ++ [s]))
        (st0, acc)
      = ({ st0 with connections :=
              (((l.filter (fun c => !(some c.connectionId == ex))).filter
                  (fun c => ctx.net c.connectionId == .gone)).map
                (fun c => c.connectionId)).foldl deleteConn st0.connections },
          acc ++ (l.filter (fun c => !(some c.connectionId == ex))).map
            (fun c => (⟨c.connectionId, payload, ctx.net c.connectionId⟩ : Sent))) := by
  induction l with
  | nil => intro st0 acc; simp
  | cons c t ih =>
    intro st0 acc
    rw [List.foldl_cons]
    cases hex : (some c.connectionId == ex) with
    | true =>
      simp only [hex, if_pos]
      rw [ih st0 acc, List.filter_cons_of_neg (by simp [hex])]
    | false =>
      simp only [hex, Bool.false_eq_true, if_neg, not_false_eq_true]
      cases hg : (ctx.net c.connectionId == SendOutcome.gone) with
      | true =>
        simp only [hg, if_pos]
        rw [ih _ _, List.filter_cons_of_pos (by simp [hex]),
          List.filter_cons_of_pos (by simpa using hg)]
        simp
      | false =>
        simp only [hg, Bool.false_eq_true, if_neg, not_false_eq_true]
        rw [ih _ _, List.filter_cons_of_pos (by simp [hex]),
          List.filter_cons_of_neg (by simp [hg])]
        simp

lemma broadcast_eq_spec (ctx : Ctx) (st : St) (channel_id : String)
    (payload : Payload) (ex : Option String) :
    broadcast_to_channel ctx st channel_id payload ex
      = broadcastSpec ctx st channel_id payload ex := by
  unfold broadcast_to_channel broadcastSpec
  rw [broadcast_foldl]
  simp

lemma broadcast_messages_eq (ctx : Ctx) (st : St) (channel_id : String)
    (payload : Payload) (ex : Option String) :
    (broadcast_to_channel ctx st channel_id payload ex).1.messages = st.messages := by
  rw [broadcast_eq_spec]
  rfl

lemma broadcast_find?_excluded (ctx : Ctx) (st : St) (channel_id : String)
    (payload : Payload) (cid : String) :
    get_connection_info (broadcast_to_channel ctx st channel_id payload (some cid)).1 cid
      = get_connection_info st cid := by
  rw [broadcast_eq_spec]
  unfold broadcastSpec get_connection_info
  apply find?_foldl_deleteConn
  intro i hi
  simp only [List.mem_map, List.mem_filter] at hi
  obtain ⟨c, ⟨⟨_, hne⟩, _⟩, rfl⟩ := hi
  simpa using hne

/-! ## Router lemmas -/

lemma handle_message_resolved (ctx : Ctx) (st : St) (connection_id : String)
    (body : Frame) (si : Conn)
    (hs : get_connection_info st connection_id = some si) :
    handle_message ctx st connection_id body
      = (some ⟨200, .msgSent "Message sent" ctx.uuid⟩,
         ⟨(((get_channel_connections st (builtMessage ctx si body).channelId).filter
              (fun c => ctx.net c.connectionId == .gone)).map
             (fun c => c.connectionId)).foldl deleteConn st.connections,
          st.messages ++ [⟨(builtMessage ctx si body).channelId, ctx.tick,
            (builtMessage ctx si body).toItem⟩]⟩,
         (get_channel_connections st (builtMessage ctx si body).channelId).map
           (fun c => ⟨c.connectionId, .message (builtMessage ctx si body),
             ctx.net c.connectionId⟩)) := by
  unfold handle_message
  rw [hs]
  rfl

lemma lambda_handler_join_state (ctx : Ctx) (st : St) (connection_id C : String)
    (body : Frame) (ha : body.action = some "join") (hc : body.channelId = some C) :
    ∃ r : Conn,
      get_connection_info (lambda_handler ctx st connection_id (some body)).2.1
          connection_id = some r
        ∧ r.connectionId = connection_id ∧ r.channelId = some C
        ∧ r.lastActivity = some ctx.now
        ∧ (lambda_handler ctx st connection_id (some body)).2.1.messages = st.messages
        ∧ (lambda_handler ctx st connection_id (some body)).1
            = ⟨200, .msg ("Joined channel " ++ C)⟩ := by
  obtain ⟨r0, hr0, hrid, hrch, hrla⟩ :=
    find?_updateChannelActivity st.connections connection_id C ctx.now
  have hg1 : get_connection_info
      ({ st with connections :=
          updateChannelActivity st.connections connection_id C ctx.now } : St)
      connection_id = some r0 := hr0
  rcases hbr : broadcast_to_channel ctx
      ({ st with connections :=
          updateChannelActivity st.connections connection_id C ctx.now } : St)
      C (.userJoined r0.userId r0.userEmail C) (some connection_id) with ⟨st2, sends1⟩
  have hmsg : st2.messages = st.messages := by
    have h := broadcast_messages_eq ctx
      ({ st with connections :=
          updateChannelActivity st.connections connection_id C ctx.now } : St)
      C (.userJoined r0.userId r0.userEmail C) (some connection_id)
    rw [hbr] at h
    exact h
  have hfind2 : get_connection_info st2 connection_id = some r0 := by
    have h := broadcast_find?_excluded ctx
      ({ st with connections :=
          updateChannelActivity st.connections connection_id C ctx.now } : St)
      C (.userJoined r0.userId r0.userEmail C) connection_id
    rw [hbr] at h
    rw [h]
    exact hg1
  refine ⟨r0, ?_, hrid, hrch, hrla, ?_, ?_⟩ <;>
    simp only [lambda_handler, ha, Option.getD_some, String.reduceEq, reduceIte,
      handle_join_channel, hc, hg1, hbr]
  · exact hfind2
  · exact hmsg

lemma lambda_handler_message_resolved (ctx : Ctx) (st : St) (connection_id : String)
    (body : Frame) (si : Conn)
    (ha : body.action.getD "message" = "message")
    (hs : get_connection_info st connection_id = some si) :
    lambda_handler ctx st connection_id (some body)
      = (⟨200, .msgSent "Message sent" ctx.uuid⟩,
         ⟨(((get_channel_connections st (builtMessage ctx si body).channelId).filter
              (fun c => ctx.net c.connectionId == .gone)).map
             (fun c => c.connectionId)).foldl deleteConn st.connections,
          st.messages ++ [⟨(builtMessage ctx si body).channelId, ctx.tick,
            (builtMessage ctx si body).toItem⟩]⟩,
         (get_channel_connections st (builtMessage ctx si body).channelId).map
           (fun c => ⟨c.connectionId, .message (builtMessage ctx si body),
             ctx.net c.connectionId⟩)) := by
  simp only [lambda_handler]
  rw [ha, if_pos rfl, handle_message_resolved ctx st connection_id body si hs]

/-! ## Claim theorems -/

/-- Claim C5 (amended): a frame whose body is not decodable as JSON makes
`Route` return the generic 500-equivalent processing-failure outcome (the
`json.loads` exception is swallowed by the handler's catch-all, so there is
no crash), with no Registry or Store state mutated and no send attempted.
It does not return the 400-equivalent client error the claim states. -/
theorem C5_undecodable_frame (ctx : Ctx) (st : St) (connection_id : String) :
    lambda_handler ctx st connection_id none
      = (⟨500, .err "Failed to process message"⟩, st, []) := rfl

/-- Claim C5 counterexample: at a concrete undecodable frame the status is
500, not the claimed 400-equivalent client error. -/
theorem C5_counterexample :
    (lambda_handler ctx0 st0 "s" none).1.statusCode = 500 ∧
    (lambda_handler ctx0 st0 "s" none).1.statusCode ≠ 400 := by
  exact ⟨rfl, by decide⟩

/-- Claim C6: a `message` or `load_more_messages` frame whose connectionId
is not in the Registry yields the 401 unauthorized outcome with no state
mutated, no message appended, and no send attempted. -/
theorem C6_unauthorized_sender (ctx : Ctx) (st : St) (connection_id : String)
    (body : Frame) (hs : get_connection_info st connection_id = none) :
    (body.action = some "message" →
      lambda_handler ctx st connection_id (some body)
        = (⟨401, .err "Connection not found"⟩, st, [])) ∧
    (body.action = some "load_more_messages" →
      lambda_handler ctx st connection_id (some body)
        = (⟨401, .err "Connection not found"⟩, st, [])) := by
  constructor
  · intro ha
    simp [lambda_handler, ha, handle_message, hs]
  · intro ha
    simp [lambda_handler, ha, handle_load_more_messages, hs]

/-- Claim C6 witness: concrete unauthorized `message` frame. -/
theorem C6_unauthorized_sender_witness :
    get_connection_info ⟨[], []⟩ "c" = none ∧
    lambda_handler ctx0 ⟨[], []⟩ "c" (some { action := some "message" })
      = (⟨401, .err "Connection not found"⟩, ⟨[], []⟩, []) :=
  ⟨rfl, (C6_unauthorized_sender ctx0 ⟨[], []⟩ "c" { action := some "message" } rfl).1 rfl⟩

/-- Claim C8: a frame with an unrecognized `action` string returns the 400
client error naming the unknown action, with the Registry and Store left
untouched and no send attempted. -/
theorem C8_unknown_action (ctx : Ctx) (st : St) (connection_id : String)
    (body : Frame) (a : String) (ha : body.action = some a)
    (h1 : a ≠ "message") (h2 : a ≠ "join") (h3 : a ≠ "leave") (h4 : a ≠ "typing")
    (h5 : a ≠ "ping") (h6 : a ≠ "load_more_messages") :
    lambda_handler ctx st connection_id (some body)
      = (⟨400, .err ("Unknown action: " ++ a)⟩, st, []) := by
  simp [lambda_handler, ha, h1, h2, h3, h4, h5, h6]

/-- Claim C8 witness: concrete unknown action `"frobnicate"`. -/
theorem C8_unknown_action_witness :
    ("frobnicate" : String) ≠ "message" ∧
    lambda_handler ctx0 st0 "s" (some { action := some "frobnicate" })
      = (⟨400, .err "Unknown action: frobnicate"⟩, st0, []) :=
  ⟨by decide,
   C8_unknown_action ctx0 st0 "s" { action := some "frobnicate" } "frobnicate" rfl
     (by decide) (by decide) (by decide) (by decide) (by decide) (by decide)⟩

/-- Claim C10: a decodable frame with no `action` field is handled as a
`message` action: it routes identically to the same frame with
`action = "message"`, and when the sender resolves, a message whose content
is the frame's content (defaulting to the empty string) is persisted and
broadcast to the message's channel. -/
theorem C10_missing_action_defaults_to_message (ctx : Ctx) (st : St)
    (connection_id : String) (body : Frame) (ha : body.action = none) :
    (lambda_handler ctx st connection_id (some body)
       = lambda_handler ctx st connection_id
           (some { body with action := some "message" })) ∧
    (∀ si : Conn, get_connection_info st connection_id = some si →
       (builtMessage ctx si body).content = body.content.getD "" ∧
       (lambda_handler ctx st connection_id (some body)).2.1.messages
         = st.messages ++ [⟨(builtMessage ctx si body).channelId, ctx.tick,
             (builtMessage ctx si body).toItem⟩] ∧
       (lambda_handler ctx st connection_id (some body)).2.2
         = (get_channel_connections st (builtMessage ctx si body).channelId).map
             (fun c => ⟨c.connectionId, .message (builtMessage ctx si body),
               ctx.net c.connectionId⟩)) := by
  constructor
  · have hb : ({ body with action := some "message" } : Frame).action.getD "message"
        = "message" := rfl
    cases hsi : get_connection_info st connection_id with
    | none =>
      simp [lambda_handler, ha, handle_message, hsi]
    | some si =>
      rw [lambda_handler_message_resolved ctx st connection_id body si
          (by rw [ha]; rfl) hsi,
        lambda_handler_message_resolved ctx st connection_id _ si hb hsi]
      rfl
  · intro si hsi
    rw [lambda_handler_message_resolved ctx st connection_id body si (by rw [ha]; rfl) hsi]
    exact ⟨rfl, rfl, rfl⟩

/-- Claim C10 witness: a concrete frame with no action field from a
resolvable sender is treated as a message send. -/
theorem C10_missing_action_witness :
    (({ content := some "hi" } : Frame).action = none) ∧
    (lambda_handler ctx0 st0 "s" (some { content := some "hi" })
       = lambda_handler ctx0 st0 "s"
           (some { content := some "hi", action := some "message" })) :=
  ⟨rfl, (C10_missing_action_defaults_to_message ctx0 st0 "s"
    { content := some "hi" } rfl).1⟩

/-- Claim C1 (amended): for a `message` frame whose sender resolves,
`Route` persists exactly one message — with the generated id, the send-time
timestamp, and the sender fields copied from the resolved connection — and
attempts the `{action:"message", ...}` broadcast to exactly the connections
whose `channelId` equals the *message's* channel (the frame's explicit
`channelId` when present, otherwise the sender's current channel,
defaulting to `"main"`), and to no other connection, returning the 200
acknowledgement carrying the generated messageId.  The sender's own
connection is among the recipients exactly when its `channelId` equals
that channel. -/
theorem C1_message_routing (ctx : Ctx) (st : St) (connection_id : String)
    (body : Frame) (si : Conn)
    (ha : body.action = some "message")
    (hs : get_connection_info st connection_id = some si) :
    ∃ m : Message,
      m = builtMessage ctx si body ∧
      m.messageId = ctx.uuid ∧
      m.timestamp = ctx.now ∧
      m.channelId = body.channelId.getD (si.channelId.getD "main") ∧
      m.senderId = si.userId.getD "unknown" ∧
      m.senderEmail = si.userEmail.getD "unknown" ∧
      m.senderRole = si.userRole.getD "user" ∧
      (lambda_handler ctx st connection_id (some body)).2.1.messages
        = st.messages ++ [⟨m.channelId, ctx.tick, m.toItem⟩] ∧
      (lambda_handler ctx st connection_id (some body)).2.2
        = (get_channel_connections st m.channelId).map
            (fun c => ⟨c.connectionId, .message m, ctx.net c.connectionId⟩) ∧
      (lambda_handler ctx st connection_id (some body)).1
        = ⟨200, .msgSent "Message sent" m.messageId⟩ := by
  refine ⟨builtMessage ctx si body, rfl, rfl, rfl, rfl, rfl, rfl, rfl, ?_, ?_, ?_⟩ <;>
    (rw [lambda_handler_message_resolved ctx st connection_id body si (by rw [ha]; rfl) hs];
     try rfl)

/-- Claim C1 witness: a concrete resolvable sender and `message` frame. -/
theorem C1_message_routing_witness :
    (({ action := some "message", content := some "hi" } : Frame).action
        = some "message") ∧
    get_connection_info st0 "s" = some connS ∧
    (∃ m : Message,
      m = builtMessage ctx0 connS { action := some "message", content := some "hi" } ∧
      m.messageId = ctx0.uuid ∧
      m.timestamp = ctx0.now ∧
      m.channelId = (({ action := some "message", content := some "hi" } : Frame)).channelId.getD
        (connS.channelId.getD "main") ∧
      m.senderId = connS.userId.getD "unknown" ∧
      m.senderEmail = connS.userEmail.getD "unknown" ∧
      m.senderRole = connS.userRole.getD "user" ∧
      (lambda_handler ctx0 st0 "s"
          (some { action := some "message", content := some "hi" })).2.1.messages
        = st0.messages ++ [⟨m.channelId, ctx0.tick, m.toItem⟩] ∧
      (lambda_handler ctx0 st0 "s"
          (some { action := some "message", content := some "hi" })).2.2
        = (get_channel_connections st0 m.channelId).map
            (fun c => ⟨c.connectionId, .message m, ctx0.net c.connectionId⟩) ∧
      (lambda_handler ctx0 st0 "s"
          (some { action := some "message", content := some "hi" })).1
        = ⟨200, .msgSent "Message sent" m.messageId⟩) :=
  ⟨rfl, rfl, C1_message_routing ctx0 st0 "s"
    { action := some "message", content := some "hi" } connS rfl rfl⟩

/-- Claim C1 counterexample: the claim as stated (broadcast goes to every
connection whose `channelId` equals the *sender's* channel, including the
sender) fails when the frame carries an explicit `channelId`: sender `"s"`
sits on `"main"` (as does `"m2"`), yet the frame addressed to `"ops"` is
attempted only to `"o"` — neither the sender nor its channel-mates receive
it. -/
theorem C1_counterexample :
    get_connection_info st0 "s" = some connS ∧
    connS.channelId = some "main" ∧
    connM.channelId = some "main" ∧
    ((lambda_handler ctx0 st0 "s"
        (some { action := some "message", channelId := some "ops",
                content := some "hi" })).2.2.map (fun s => s.connId)) = ["o"] ∧
    ("s" : String) ≠ "o" ∧ ("m2" : String) ≠ "o" := by
  refine ⟨rfl, rfl, rfl, rfl, by decide, by decide⟩

/-- Claim C4: `broadcast_to_channel` implements exactly the algorithm the
spec describes — membership resolved once via the registry's
list-by-channel, a send attempted to each member except the excluded one,
and every connection that reported gone deleted from the registry (the
source interleaves the deletes with the fan-out, but the result — final
registry state and send trace — coincides with collecting the gone
connections and deleting them after the fan-out completes, the order the
spec gives); afterwards no unexcluded connection that reported gone
appears in the channel's listing. -/
theorem C4_broadcast_reaps_gone (ctx : Ctx) (st : St) (channel_id : String)
    (payload : Payload) (exclude_connection : Option String) :
    broadcast_to_channel ctx st channel_id payload exclude_connection
        = broadcastSpec ctx st channel_id payload exclude_connection ∧
    ((get_channel_connections
        (broadcast_to_channel ctx st channel_id payload exclude_connection).1
        channel_id).all
      (fun c => (some c.connectionId == exclude_connection)
        || !(ctx.net c.connectionId == .gone))) = true := by
  refine ⟨broadcast_eq_spec ctx st channel_id payload exclude_connection, ?_⟩
  rw [broadcast_eq_spec]
  simp only [broadcastSpec]
  rw [foldl_deleteConn_eq_filter, List.all_eq_true]
  intro c hc
  simp only [get_channel_connections, List.mem_filter] at hc
  obtain ⟨⟨hmem, hnotgone⟩, hch⟩ := hc
  cases hex : (some c.connectionId == exclude_connection) with
  | true => simp
  | false =>
    simp only [Bool.false_or, Bool.not_eq_true']
    cases hg : (ctx.net c.connectionId == SendOutcome.gone) with
    | false => rfl
    | true =>
      exfalso
      have hin : c.connectionId ∈
          (((get_channel_connections st channel_id).filter
              (fun c => !(some c.connectionId == exclude_connection))).filter
            (fun c => ctx.net c.connectionId == .gone)).map
            (fun c => c.connectionId) := by
        refine List.mem_map_of_mem _ ?_
        rw [List.mem_filter]
        refine ⟨?_, hg⟩
        rw [List.mem_filter]
        refine ⟨?_, by simp [hex]⟩
        simp only [get_channel_connections, List.mem_filter]
        exact ⟨hmem, hch⟩
      have htrue : ((((get_channel_connections st channel_id).filter
              (fun c => !(some c.connectionId == exclude_connection))).filter
            (fun c => ctx.net c.connectionId == .gone)).map
            (fun c => c.connectionId)).any
            (fun i => c.connectionId == i) = true :=
        List.any_eq_true.mpr ⟨c.connectionId, hin, by simp⟩
      simp only [get_channel_connections] at htrue
      rw [htrue] at hnotgone
      simp at hnotgone

/-- Claim C9 (amended): on a `join` frame the Registry mutation runs before
the sender is resolved, so a connectionId absent from the Registry still
causes the upsert to create a partial record (only `channelId` and
`lastActivity`, no user fields) keyed by that connectionId — state is
mutated despite the sender having been absent.  The invocation then
resolves the sender against that freshly created record and ends in the
200 success outcome, not in the 500 processing-failure outcome the claim
states (and not in the unauthorized outcome either). -/
theorem C9_join_absent_sender_mutates (ctx : Ctx) (st : St) (connection_id C : String)
    (body : Frame) (ha : body.action = some "join") (hc : body.channelId = some C)
    (hs : get_connection_info st connection_id = none) :
    get_connection_info (lambda_handler ctx st connection_id (some body)).2.1
        connection_id
      = some ⟨connection_id, none, none, none, some C, some ctx.now⟩ ∧
    (lambda_handler ctx st connection_id (some body)).1
      = ⟨200, .msg ("Joined channel " ++ C)⟩ := by
  have hs' : st.connections.find? (fun c => c.connectionId == connection_id) = none := hs
  have hupd := updateChannelActivity_absent st.connections connection_id C ctx.now hs'
  have hg1 : get_connection_info
      ({ st with connections :=
          updateChannelActivity st.connections connection_id C ctx.now } : St)
      connection_id
      = some ⟨connection_id, none, none, none, some C, some ctx.now⟩ := by
    show (updateChannelActivity st.connections connection_id C ctx.now).find?
        (fun c => c.connectionId == connection_id) = _
    rw [hupd, List.find?_append, hs']
    simp [List.find?]
  rcases hbr : broadcast_to_channel ctx
      ({ st with connections :=
          updateChannelActivity st.connections connection_id C ctx.now } : St)
      C (.userJoined none none C) (some connection_id) with ⟨st2, sends1⟩
  have hfind2 : get_connection_info st2 connection_id
      = some ⟨connection_id, none, none, none, some C, some ctx.now⟩ := by
    have h := broadcast_find?_excluded ctx
      ({ st with connections :=
          updateChannelActivity st.connections connection_id C ctx.now } : St)
      C (.userJoined none none C) connection_id
    rw [hbr] at h
    rw [h]
    exact hg1
  refine ⟨?_, ?_⟩ <;>
    simp only [lambda_handler, ha, Option.getD_some, String.reduceEq, reduceIte,
      handle_join_channel, hc, hg1, hbr]
  exact hfind2

/-- Claim C9 counterexample: joining from a connectionId absent from the
Registry ends with status 200 and a mutated Registry — not the 500
processing-failure outcome the claim predicts. -/
theorem C9_counterexample :
    get_connection_info ⟨[], []⟩ "ghost" = none ∧
    (lambda_handler ctx0 ⟨[], []⟩ "ghost"
        (some { action := some "join", channelId := some "ops" })).1.statusCode = 200 ∧
    (lambda_handler ctx0 ⟨[], []⟩ "ghost"
        (some { action := some "join", channelId := some "ops" })).1.statusCode ≠ 500 ∧
    (lambda_handler ctx0 ⟨[], []⟩ "ghost"
        (some { action := some "join", channelId := some "ops" })).2.1.connections
      = [⟨"ghost", none, none, none, some "ops", some "T1"⟩] := by
  exact ⟨rfl, rfl, by decide, rfl⟩

/-- Claim C9 witness: the amended statement at a concrete absent sender. -/
theorem C9_join_absent_sender_witness :
    get_connection_info ⟨[], []⟩ "ghost" = none ∧
    (get_connection_info (lambda_handler ctx0 ⟨[], []⟩ "ghost"
        (some { action := some "join", channelId := some "ops" })).2.1 "ghost"
      = some ⟨"ghost", none, none, none, some "ops", some "T1"⟩ ∧
    (lambda_handler ctx0 ⟨[], []⟩ "ghost"
        (some { action := some "join", channelId := some "ops" })).1
      = ⟨200, .msg "Joined channel ops"⟩) :=
  ⟨rfl, C9_join_absent_sender_mutates ctx0 ⟨[], []⟩ "ghost" "ops"
    { action := some "join", channelId := some "ops" } rfl rfl rfl⟩

/-- Claim C2: a `message` frame with no explicit `channelId`, routed
immediately after a `join` to channel `C` on the same connection, builds
and persists its message on channel `C` and broadcasts it to exactly the
connections on channel `C` in the post-join registry state — never to the
channel the connection was on before the join. -/
theorem C2_join_then_message (ctx1 ctx2 : Ctx) (st : St) (connection_id C : String)
    (f1 f2 : Frame)
    (h1a : f1.action = some "join") (h1c : f1.channelId = some C)
    (h2a : f2.action = some "message") (h2c : f2.channelId = none)
    (r1 : Resp) (st1 : St) (s1 : List Sent)
    (hrun1 : lambda_handler ctx1 st connection_id (some f1) = (r1, st1, s1)) :
    ∃ m : Message,
      m.channelId = C ∧
      (lambda_handler ctx2 st1 connection_id (some f2)).2.1.messages
        = st1.messages ++ [⟨C, ctx2.tick, m.toItem⟩] ∧
      (lambda_handler ctx2 st1 connection_id (some f2)).2.2
        = (get_channel_connections st1 C).map
            (fun c => ⟨c.connectionId, .message m, ctx2.net c.connectionId⟩) := by
  obtain ⟨r0, hfind, hrid, hrch, hrla, hmsg, hresp⟩ :=
    lambda_handler_join_state ctx1 st connection_id C f1 h1a h1c
  rw [hrun1] at hfind
  have hch : (builtMessage ctx2 r0 f2).channelId = C := by
    simp [builtMessage, h2c, hrch]
  refine ⟨builtMessage ctx2 r0 f2, hch, ?_, ?_⟩ <;>
    rw [lambda_handler_message_resolved ctx2 st1 connection_id f2 r0
      (by rw [h2a]; rfl) hfind, hch]

/-- Claim C2 witness: join to `"ops"` then an unadorned `message` from the
same connection lands on `"ops"`. -/
theorem C2_join_then_message_witness :
    (({ action := some "join", channelId := some "ops" } : Frame).action
        = some "join") ∧
    lambda_handler ctx0 st0 "s" (some { action := some "join", channelId := some "ops" })
      = (⟨200, .msg "Joined channel ops"⟩,
         ⟨[{ connS with channelId := some "ops", lastActivity := some "T1" },
           connO, connM], []⟩,
         [⟨"o", .userJoined (some "u1") (some "e1") "ops", .delivered⟩,
          ⟨"s", .messageHistory [] false none "ops", .delivered⟩]) ∧
    (∃ m : Message,
      m.channelId = "ops" ∧
      (lambda_handler ctx0
          (⟨[{ connS with channelId := some "ops", lastActivity := some "T1" },
             connO, connM], []⟩ : St) "s"
          (some { action := some "message" })).2.1.messages
        = (⟨[{ connS with channelId := some "ops", lastActivity := some "T1" },
             connO, connM], []⟩ : St).messages ++ [⟨"ops", ctx0.tick, m.toItem⟩] ∧
      (lambda_handler ctx0
          (⟨[{ connS with channelId := some "ops", lastActivity := some "T1" },
             connO, connM], []⟩ : St) "s"
          (some { action := some "message" })).2.2
        = (get_channel_connections
            (⟨[{ connS with channelId := some "ops", lastActivity := some "T1" },
               connO, connM], []⟩ : St) "ops").map
            (fun c => ⟨c.connectionId, .message m, ctx0.net c.connectionId⟩)) :=
  ⟨rfl, by decide,
   C2_join_then_message ctx0 ctx0 st0 "s" "ops"
     { action := some "join", channelId := some "ops" }
     { action := some "message" }
     rfl rfl rfl rfl
     ⟨200, .msg "Joined channel ops"⟩
     ⟨[{ connS with channelId := some "ops", lastActivity := some "T1" },
       connO, connM], []⟩
     [⟨"o", .userJoined (some "u1") (some "e1") "ops", .delivered⟩,
      ⟨"s", .messageHistory [] false none "ops", .delivered⟩]
     (by decide)⟩

/-- Claim C7 (amended): on every read path through `get_recent_messages`
(join history and `load_more_messages` pages), every *top-level*
decimal-typed attribute of each returned record is normalized to a
standard float before the payload leaves the store; a decimal nested
inside a map-valued attribute — such as inside the open `metadata`
mapping — is passed through unconverted. -/
theorem C7_decimal_normalization (st : St) (channel_id : String) (limit : Nat)
    (last_evaluated_key : Option Nat) :
    ((get_recent_messages st channel_id limit last_evaluated_key).messages.all
      (fun item => item.all (fun kv => !(AttrVal.isDecimal kv.2)))) = true := by
  unfold get_recent_messages
  simp only [queryDesc]
  rw [List.all_eq_true]
  intro item hitem
  rw [List.mem_reverse, List.mem_map] at hitem
  obtain ⟨m, _, rfl⟩ := hitem
  rw [List.all_eq_true]
  intro kv hkv
  unfold cleanItem at hkv
  rw [List.mem_map] at hkv
  obtain ⟨kv0, _, rfl⟩ := hkv
  cases kv0.2 <;> rfl

/-- Claim C7 counterexample: a stored record with a decimal nested inside
its `metadata` map leaves the store with that decimal unconverted (the
top-level decimal is converted), so not every decimal-typed field at any
position is normalized. -/
theorem C7_counterexample :
    (get_recent_messages stDec "c" 50 none).messages
      = [[("score", .float 5),
          ("metadata", .mapCons "lat" (.decimal 7) .mapNil)]] ∧
    ((get_recent_messages stDec "c" 50 none).messages.any
      (fun item => item.any (fun kv => AttrVal.hasDecimal kv.2))) = true := by
  exact ⟨rfl, rfl⟩

/-! ## Pagination lemmas -/

lemma keysDesc_tail (a : StoredMsg) (t : List StoredMsg)
    (h : keysDesc (a :: t) = true) : keysDesc t = true := by
  cases t with
  | nil => rfl
  | cons b t' =>
    have h' : ((decide (b.key < a.key)) && keysDesc (b :: t')) = true := h
    exact ((Bool.and_eq_true _ _).mp h').2

lemma keysDesc_head_lt (a : StoredMsg) (t : List StoredMsg)
    (h : keysDesc (a :: t) = true) : ∀ m ∈ t, m.key < a.key := by
  induction t generalizing a with
  | nil =>
    intro m hm
    cases hm
  | cons b t' ih =>
    intro m hm
    have h' : ((decide (b.key < a.key)) && keysDesc (b :: t')) = true := h
    obtain ⟨hab, hbt⟩ := (Bool.and_eq_true _ _).mp h'
    have hab' : b.key < a.key := of_decide_eq_true hab
    rcases List.mem_cons.mp hm with rfl | hm'
    · exact hab'
    · exact Nat.lt_trans (ih b hbt m hm') hab'

lemma filter_lt_get (l : List StoredMsg) :
    ∀ (i : Nat), keysDesc l = true → ∀ (hi : i < l.length),
      l.filter (fun m => decide (m.key < (l.get ⟨i, hi⟩).key)) = l.drop (i + 1) := by
  induction l with
  | nil =>
    intro i _ hi
    exact absurd hi (Nat.not_lt_zero i)
  | cons a t ih =>
    intro i hd hi
    cases i with
    | zero =>
      rw [List.filter_cons_of_neg (by simp)]
      apply List.filter_eq_self.mpr
      intro m hm
      exact decide_eq_true (keysDesc_head_lt a t hd m hm)
    | succ j =>
      have hj : j < t.length := Nat.lt_of_succ_lt_succ hi
      have hget : (a :: t).get ⟨j + 1, hi⟩ = t.get ⟨j, hj⟩ := rfl
      rw [hget]
      have hlt : (t.get ⟨j, hj⟩).key < a.key :=
        keysDesc_head_lt a t hd _ (t.get_mem j hj)
      rw [List.filter_cons_of_neg (by simp only [decide_eq_true_eq]; omega)]
      exact ih j (keysDesc_tail a t hd) hj

lemma get_recent_messages_full (st : St) (channel_id : String) (limit : Nat)
    (cursor : Option Nat) (hl : 0 < limit)
    (hfull : ((afterCursor (channelDesc st channel_id) cursor).take limit).length
      = limit) :
    get_recent_messages st channel_id limit cursor
      = { messages := (((afterCursor (channelDesc st channel_id) cursor).take
            limit).map (fun m => cleanItem m.item)).reverse
          hasMore := true
          lastEvaluatedKey :=
            (((afterCursor (channelDesc st channel_id) cursor).take
              limit).getLast?).map (fun m => m.key) } := by
  have hne : ((afterCursor (channelDesc st channel_id) cursor).take limit) ≠ [] := by
    intro h0
    rw [h0] at hfull
    simp at hfull
    omega
  have hsome : ((((afterCursor (channelDesc st channel_id) cursor).take
      limit).getLast?).map (fun m => m.key)).isSome = true := by
    simp [hne]
  simp only [get_recent_messages, queryDesc]
  rw [if_pos ⟨hl, hfull⟩, hsome]

lemma get_recent_messages_short (st : St) (channel_id : String) (limit : Nat)
    (cursor : Option Nat)
    (hshort : ((afterCursor (channelDesc st channel_id) cursor).take limit).length
      ≠ limit) :
    get_recent_messages st channel_id limit cursor
      = { messages := ((afterCursor (channelDesc st channel_id) cursor).map
            (fun m => cleanItem m.item)).reverse
          hasMore := false
          lastEvaluatedKey := none } := by
  have hle : (afterCursor (channelDesc st channel_id) cursor).length ≤ limit := by
    rw [List.length_take] at hshort
    omega
  simp only [get_recent_messages, queryDesc]
  rw [if_neg (fun hc => hshort hc.2), List.take_of_length_le hle]
  rfl

lemma runPages_succ (st : St) (channel_id : String) (limit fuel : Nat)
    (cursor : Option Nat) :
    runPages st channel_id limit (fuel + 1) cursor
      = (if (get_recent_messages st channel_id limit cursor).hasMore then
           (get_recent_messages st channel_id limit cursor).messages ::
             runPages st channel_id limit fuel
               (get_recent_messages st channel_id limit cursor).lastEvaluatedKey
         else [(get_recent_messages st channel_id limit cursor).messages]) := rfl

lemma runPages_flatten (st : St) (channel_id : String) (limit : Nat) (hl : 0 < limit)
    (hd : keysDesc (channelDesc st channel_id) = true) :
    ∀ (fuel j : Nat) (cursor : Option Nat),
      afterCursor (channelDesc st channel_id) cursor
        = (channelDesc st channel_id).drop j →
      (channelDesc st channel_id).length ≤ j + fuel * limit →
      ((runPages st channel_id limit fuel cursor).map List.reverse).flatten
        = ((channelDesc st channel_id).drop j).map (fun m => cleanItem m.item) := by
  intro fuel
  induction fuel with
  | zero =>
    intro j cursor hcur hbound
    have hnil : (channelDesc st channel_id).drop j = [] :=
      List.drop_eq_nil_of_le (by simpa using hbound)
    simp [runPages, hnil]
  | succ fuel ih =>
    intro j cursor hcur hbound
    by_cases hfull : (((channelDesc st channel_id).drop j).take limit).length = limit
    · have hfull' : ((afterCursor (channelDesc st channel_id) cursor).take
          limit).length = limit := by
        rw [hcur]
        exact hfull
      have hrm := get_recent_messages_full st channel_id limit cursor hl hfull'
      rw [hcur] at hrm
      have hlenle : limit ≤ ((channelDesc st channel_id).drop j).length := by
        rw [List.length_take] at hfull
        omega
      have hjlimit : j + limit ≤ (channelDesc st channel_id).length := by
        rw [List.length_drop] at hlenle
        omega
      have hidx : j + limit - 1 < (channelDesc st channel_id).length := by omega
      have hlast : (((channelDesc st channel_id).drop j).take limit).getLast?
          = some ((channelDesc st channel_id).get ⟨j + limit - 1, hidx⟩) := by
        rw [List.getLast?_eq_getElem?, hfull, List.getElem?_take_of_lt (by omega),
          List.getElem?_drop]
        have harith : j + (limit - 1) = j + limit - 1 := by omega
        rw [harith, List.getElem?_eq_getElem hidx]
        rfl
      have hnext : afterCursor (channelDesc st channel_id)
          (some ((channelDesc st channel_id).get ⟨j + limit - 1, hidx⟩).key)
          = (channelDesc st channel_id).drop (j + limit) := by
        show (channelDesc st channel_id).filter _ = _
        rw [filter_lt_get (channelDesc st channel_id) (j + limit - 1) hd hidx]
        have harith : j + limit - 1 + 1 = j + limit := by omega
        rw [harith]
      rw [Nat.succ_mul] at hbound
      have hbound' : (channelDesc st channel_id).length
          ≤ (j + limit) + fuel * limit := by omega
      have hm : (get_recent_messages st channel_id limit cursor).hasMore = true := by
        rw [hrm]
      have hmsgs : (get_recent_messages st channel_id limit cursor).messages
          = ((((channelDesc st channel_id).drop j).take limit).map
              (fun m => cleanItem m.item)).reverse := by
        rw [hrm]
      have hlek : (get_recent_messages st channel_id limit cursor).lastEvaluatedKey
          = some ((channelDesc st channel_id).get ⟨j + limit - 1, hidx⟩).key := by
        rw [hrm]
        show Option.map _ _ = _
        rw [hlast, Option.map_some']
      rw [runPages_succ, if_pos hm, hmsgs, hlek]
      simp only [List.map_cons, List.flatten_cons, List.reverse_reverse]
      rw [ih (j + limit) _ hnext hbound', ← List.drop_drop, ← List.map_append,
        List.take_append_drop]
    · have hshort' : ((afterCursor (channelDesc st channel_id) cursor).take
          limit).length ≠ limit := by
        rw [hcur]
        exact hfull
      have hrm := get_recent_messages_short st channel_id limit cursor hshort'
      rw [hcur] at hrm
      have hm : ¬((get_recent_messages st channel_id limit cursor).hasMore = true) := by
        rw [hrm]
        simp
      have hmsgs : (get_recent_messages st channel_id limit cursor).messages
          = (((channelDesc st channel_id).drop j).map
              (fun m => cleanItem m.item)).reverse := by
        rw [hrm]
      rw [runPages_succ, if_neg hm, hmsgs]
      simp

lemma runPages_page_length (st : St) (channel_id : String) (limit : Nat) :
    ∀ (fuel : Nat) (cursor : Option Nat),
      ((runPages st channel_id limit fuel cursor).all
        (fun p => decide (p.length ≤ limit))) = true := by
  intro fuel
  induction fuel with
  | zero => intro cursor; rfl
  | succ fuel ih =>
    intro cursor
    have hlen : (get_recent_messages st channel_id limit cursor).messages.length
        ≤ limit := by
      simp only [get_recent_messages, queryDesc]
      simp [List.length_take_le]
    simp only [runPages]
    by_cases hm : (get_recent_messages st channel_id limit cursor).hasMore = true
    · rw [if_pos hm]
      simp [ih, hlen]
    · rw [if_neg hm]
      simp [hlen]

/-- Claim C3 (amended): for a channel whose newest-first slice has strictly
descending sort keys and a positive limit, the pagination loop that feeds
each returned `lastEvaluatedKey` back verbatim yields, per call, at most
`limit` messages in chronological order; across the whole loop no message
is duplicated and none skipped — the pages, re-reversed to newest-first
and concatenated, are exactly the channel's stored slice, so each page is
strictly older than the one before it — and the loop terminates.  However
`hasMore` is not equivalent to "older messages remain": it is true iff the
call returned exactly `limit` messages, so when a page boundary coincides
with the end of the range the loop makes one final call that returns an
empty page with `hasMore = false`.  `handle_load_more_messages` passes the
frame's cursor (accepted from either field name) to the store verbatim and
replies with exactly the store's page. -/
theorem C3_pagination (st : St) (channel_id : String) (limit : Nat)
    (hl : 0 < limit) (hd : keysDesc (channelDesc st channel_id) = true) :
    (((paginateAll st channel_id limit).map List.reverse).flatten
        = (channelDesc st channel_id).map (fun m => cleanItem m.item)) ∧
    ((paginateAll st channel_id limit).all
        (fun p => decide (p.length ≤ limit)) = true) ∧
    (∀ (ctx : Ctx) (connection_id : String) (body : Frame) (si : Conn),
      get_connection_info st connection_id = some si →
      (handle_load_more_messages ctx st connection_id body).2.2
        = [⟨connection_id,
            .messageHistoryBatch
              (get_recent_messages st (body.channelId.getD "main")
                (body.limit.getD 50) (body.cursor <|> body.lastEvaluatedKey)).messages
              (get_recent_messages st (body.channelId.getD "main")
                (body.limit.getD 50) (body.cursor <|> body.lastEvaluatedKey)).hasMore
              (get_recent_messages st (body.channelId.getD "main")
                (body.limit.getD 50)
                (body.cursor <|> body.lastEvaluatedKey)).lastEvaluatedKey
              (body.channelId.getD "main"),
            ctx.net connection_id⟩]) := by
  refine ⟨?_, ?_, ?_⟩
  · have hbound : (channelDesc st channel_id).length
        ≤ 0 + (st.messages.length + 1) * limit := by
      have h1 : (channelDesc st channel_id).length ≤ st.messages.length := by
        unfold channelDesc
        rw [List.length_reverse]
        exact List.length_filter_le _ _
      have h2 : st.messages.length + 1 ≤ (st.messages.length + 1) * limit :=
        Nat.le_mul_of_pos_right _ hl
      omega
    have h := runPages_flatten st channel_id limit hl hd (st.messages.length + 1)
      0 none (by simp [afterCursor]) hbound
    rw [List.drop_zero] at h
    exact h
  · exact runPages_page_length st channel_id limit (st.messages.length + 1) none
  · intro ctx connection_id body si hs
    cases hnet : (ctx.net connection_id == SendOutcome.delivered) <;>
      simp [handle_load_more_messages, hs, hnet]

/-- Claim C3 counterexample: with one stored message and limit 1 the first
call returns that message with `hasMore = true`, yet no older message
remains — the follow-up call with the returned cursor yields the empty
page.  So `hasMore` being true is not equivalent to older messages
remaining in the range. -/
theorem C3_counterexample :
    (get_recent_messages stOne "c" 1 none).messages
      = [[("content", .str "a")]] ∧
    (get_recent_messages stOne "c" 1 none).hasMore = true ∧
    (get_recent_messages stOne "c" 1
        (get_recent_messages stOne "c" 1 none).lastEvaluatedKey).messages = [] ∧
    (get_recent_messages stOne "c" 1
        (get_recent_messages stOne "c" 1 none).lastEvaluatedKey).hasMore = false := by
  exact ⟨rfl, rfl, rfl, rfl⟩

/-- Claim C3 witness: the amended pagination statement at a concrete
three-message store with page size 2. -/
theorem C3_pagination_witness :
    0 < 2 ∧ keysDesc (channelDesc stThree "c") = true ∧
    ((paginateAll stThree "c" 2).map List.reverse).flatten
      = (channelDesc stThree "c").map (fun m => cleanItem m.item) :=
  ⟨by decide, by decide, (C3_pagination stThree "c" 2 (by decide) (by decide)).1⟩

end Situ8
